import Mathlib

/-!
Shallow embedding of the VoxelTest core (frustum/AABB culling, voxel chunk
and block model, update-command interpretation) and proofs about it.

Floating-point (`f32`) scalar arithmetic from the source is modelled with
exact rational arithmetic (`ℚ`); machine integers (`u32`, `u16`) are
modelled with `Nat` together with explicit reductions modulo `2 ^ 32`
wherever the source's integer width can make a value wrap.
-/

namespace VoxelTest

/-- Three-component vector, modelling `glam::Vec3` / `glam::Vec3A` with
rational components in place of `f32`. -/
structure Vec3 where
  x : ℚ
  y : ℚ
  z : ℚ
deriving DecidableEq

/-- `src/frustum.rs`: `pub struct Aabb { min: Vec3, max: Vec3 }`. -/
structure Aabb where
  min : Vec3
  max : Vec3
deriving DecidableEq

/-- `src/frustum.rs`: `pub enum Intersection { Inside, Partial, Outside }`. -/
inductive Intersection where
  | Inside
  | Partial
  | Outside
deriving DecidableEq

/-- `src/frustum.rs`: `pub struct FrustumCuller` — six plane equations as
24 scalar fields (`nx`/`px`/`ny`/`py`/`nz`/`pz` × `{x,y,z,w}`). -/
structure FrustumCuller where
  nx_x : ℚ
  nx_y : ℚ
  nx_z : ℚ
  nx_w : ℚ
  px_x : ℚ
  px_y : ℚ
  px_z : ℚ
  px_w : ℚ
  ny_x : ℚ
  ny_y : ℚ
  ny_z : ℚ
  ny_w : ℚ
  py_x : ℚ
  py_y : ℚ
  py_z : ℚ
  py_w : ℚ
  nz_x : ℚ
  nz_y : ℚ
  nz_z : ℚ
  nz_w : ℚ
  pz_x : ℚ
  pz_y : ℚ
  pz_z : ℚ
  pz_w : ℚ
deriving DecidableEq

/-- `src/frustum.rs`: `impl Aabb { pub fn from_params(min, max) }`. -/
def Aabb.from_params (min max : Vec3) : Aabb :=
  { min := min, max := max }

/-- `src/frustum.rs`: `FrustumCuller::test_bounding_box`, translated
branch-for-branch: for each of the six planes, first the positive-vertex
test (`if comp < 0 { min } else { max }` per axis, compared with `>= -w`);
on failure the nested `if` chain falls through to `Outside`; on success the
negative-vertex test is accumulated into `inside` (`inside &= …`), and after
the sixth plane the result is `Inside` when `inside` still holds, else
`Partial`. -/
def test_bounding_box (c : FrustumCuller) (aab : Aabb) : Intersection :=
  let inside := true
  if c.nx_x * (if c.nx_x < 0 then aab.min.x else aab.max.x)
      + c.nx_y * (if c.nx_y < 0 then aab.min.y else aab.max.y)
      + c.nx_z * (if c.nx_z < 0 then aab.min.z else aab.max.z) ≥ -c.nx_w then
    let inside := inside && decide (c.nx_x * (if c.nx_x < 0 then aab.max.x else aab.min.x)
      + c.nx_y * (if c.nx_y < 0 then aab.max.y else aab.min.y)
      + c.nx_z * (if c.nx_z < 0 then aab.max.z else aab.min.z) ≥ -c.nx_w)
    if c.px_x * (if c.px_x < 0 then aab.min.x else aab.max.x)
        + c.px_y * (if c.px_y < 0 then aab.min.y else aab.max.y)
        + c.px_z * (if c.px_z < 0 then aab.min.z else aab.max.z) ≥ -c.px_w then
      let inside := inside && decide (c.px_x * (if c.px_x < 0 then aab.max.x else aab.min.x)
        + c.px_y * (if c.px_y < 0 then aab.max.y else aab.min.y)
        + c.px_z * (if c.px_z < 0 then aab.max.z else aab.min.z) ≥ -c.px_w)
      if c.ny_x * (if c.ny_x < 0 then aab.min.x else aab.max.x)
          + c.ny_y * (if c.ny_y < 0 then aab.min.y else aab.max.y)
          + c.ny_z * (if c.ny_z < 0 then aab.min.z else aab.max.z) ≥ -c.ny_w then
        let inside := inside && decide (c.ny_x * (if c.ny_x < 0 then aab.max.x else aab.min.x)
          + c.ny_y * (if c.ny_y < 0 then aab.max.y else aab.min.y)
          + c.ny_z * (if c.ny_z < 0 then aab.max.z else aab.min.z) ≥ -c.ny_w)
        if c.py_x * (if c.py_x < 0 then aab.min.x else aab.max.x)
            + c.py_y * (if c.py_y < 0 then aab.min.y else aab.max.y)
            + c.py_z * (if c.py_z < 0 then aab.min.z else aab.max.z) ≥ -c.py_w then
          let inside := inside && decide (c.py_x * (if c.py_x < 0 then aab.max.x else aab.min.x)
            + c.py_y * (if c.py_y < 0 then aab.max.y else aab.min.y)
            + c.py_z * (if c.py_z < 0 then aab.max.z else aab.min.z) ≥ -c.py_w)
          if c.nz_x * (if c.nz_x < 0 then aab.min.x else aab.max.x)
              + c.nz_y * (if c.nz_y < 0 then aab.min.y else aab.max.y)
              + c.nz_z * (if c.nz_z < 0 then aab.min.z else aab.max.z) ≥ -c.nz_w then
            let inside := inside && decide (c.nz_x * (if c.nz_x < 0 then aab.max.x else aab.min.x)
              + c.nz_y * (if c.nz_y < 0 then aab.max.y else aab.min.y)
              + c.nz_z * (if c.nz_z < 0 then aab.max.z else aab.min.z) ≥ -c.nz_w)
            if c.pz_x * (if c.pz_x < 0 then aab.min.x else aab.max.x)
                + c.pz_y * (if c.pz_y < 0 then aab.min.y else aab.max.y)
                + c.pz_z * (if c.pz_z < 0 then aab.min.z else aab.max.z) ≥ -c.pz_w then
              let inside := inside && decide (c.pz_x * (if c.pz_x < 0 then aab.max.x else aab.min.x)
                + c.pz_y * (if c.pz_y < 0 then aab.max.y else aab.min.y)
                + c.pz_z * (if c.pz_z < 0 then aab.max.z else aab.min.z) ≥ -c.pz_w)
              if inside then Intersection.Inside else Intersection.Partial
            else Intersection.Outside
          else Intersection.Outside
        else Intersection.Outside
      else Intersection.Outside
    else Intersection.Outside
  else Intersection.Outside

/-- One frustum plane `n·v + w` as four scalars, grouping the per-plane
fields of `FrustumCuller`. -/
structure Plane where
  x : ℚ
  y : ℚ
  z : ℚ
  w : ℚ
deriving DecidableEq

/-- The six planes of a `FrustumCuller`, in the order the source tests
them: `nx`, `px`, `ny`, `py`, `nz`, `pz`. -/
def FrustumCuller.planes (c : FrustumCuller) : List Plane :=
  [⟨c.nx_x, c.nx_y, c.nx_z, c.nx_w⟩, ⟨c.px_x, c.px_y, c.px_z, c.px_w⟩,
   ⟨c.ny_x, c.ny_y, c.ny_z, c.ny_w⟩, ⟨c.py_x, c.py_y, c.py_z, c.py_w⟩,
   ⟨c.nz_x, c.nz_y, c.nz_z, c.nz_w⟩, ⟨c.pz_x, c.pz_y, c.pz_z, c.pz_w⟩]

/-- Signed distance of a point to a plane: `p.x*v.x + p.y*v.y + p.z*v.z + p.w`. -/
def Plane.signedDist (p : Plane) (v : Vec3) : ℚ :=
  p.x * v.x + p.y * v.y + p.z * v.z + p.w

/-- The positive vertex of a box for a plane: per axis the max corner if the
plane's normal component is `≥ 0`, else the min corner (spec §4.1). -/
def Aabb.positiveVertex (a : Aabb) (p : Plane) : Vec3 :=
  ⟨if 0 ≤ p.x then a.max.x else a.min.x,
   if 0 ≤ p.y then a.max.y else a.min.y,
   if 0 ≤ p.z then a.max.z else a.min.z⟩

/-- The negative vertex of a box for a plane: the opposite per-axis choice
to `Aabb.positiveVertex`. -/
def Aabb.negativeVertex (a : Aabb) (p : Plane) : Vec3 :=
  ⟨if 0 ≤ p.x then a.min.x else a.max.x,
   if 0 ≤ p.y then a.min.y else a.max.y,
   if 0 ≤ p.z then a.min.z else a.max.z⟩

/-- The classification the spec describes in §4.1, written from the spec's
words (positive/negative-vertex rule) to be compared with
`test_bounding_box`: `Outside` when some plane's positive-vertex signed
distance is negative, else `Inside` when every plane's negative-vertex
signed distance is non-negative, else `Partial`. -/
def classify_by_vertex_rule (c : FrustumCuller) (a : Aabb) : Intersection :=
  if c.planes.any (fun p => decide (p.signedDist (a.positiveVertex p) < 0)) then
    Intersection.Outside
  else if c.planes.all (fun p => decide (0 ≤ p.signedDist (a.negativeVertex p))) then
    Intersection.Inside
  else Intersection.Partial

/-- Reduction modulo `2 ^ 32`, the width of the source's `u32` values. -/
def u32 (n : Nat) : Nat := n % 4294967296

/-- `src/chunks.rs`: `pub struct Block { data: u32 }` — one voxel bit-packed
into a single unsigned 32-bit integer. -/
structure Block where
  data : Nat
deriving DecidableEq

/-- `Block::new(data)`. -/
def Block.new (data : Nat) : Block := ⟨u32 data⟩

/-- `Block::with_position`: `pos = x << 6 | y << 3 | z`, then
`data = (data >> 9) << 9 | pos` (all `u32` arithmetic; the shifts discard
bits past the integer width). -/
def Block.with_position (b : Block) (x y z : Nat) : Block :=
  let pos := u32 ((u32 x) <<< 6) ||| u32 ((u32 y) <<< 3) ||| u32 z
  let data := b.data >>> 9
  ⟨u32 (data <<< 9) ||| pos⟩

/-- `Block::with_id`: `position = data & 0b111111111`, then
`data = (data >> 25) << 25 | (id as u32) << 9 | position` (`id` is a `u16`). -/
def Block.with_id (b : Block) (id : Nat) : Block :=
  let position := b.data &&& 511
  let data := b.data >>> 25
  ⟨u32 (data <<< 25) ||| u32 ((id % 65536) <<< 9) ||| position⟩

/-- `src/chunks.rs`: `pub struct NVec { x, y, z: u32, _padding: u32 }`
(the padding word is always zero and is represented only in `NVec.bytes`). -/
structure NVec where
  x : Nat
  y : Nat
  z : Nat
deriving DecidableEq

/-- `NVec::new(x, y, z)`. -/
def NVec.new (x y z : Nat) : NVec := ⟨x, y, z⟩

/-- `Block::position`: decode the low 9 bits into the three 3-bit local
coordinates `(pos >> 6, (pos >> 3) & 0b111, pos & 0b111)`. -/
def Block.position (b : Block) : NVec :=
  let position := b.data &&& 511
  ⟨position >>> 6, (position >>> 3) &&& 7, position &&& 7⟩

/-- `Block::id`: `((data >> 9) & 0xffff) as u16`. -/
def Block.id (b : Block) : Nat := (b.data >>> 9) &&& 65535

/-- `Into<Vec3> for NVec`: the `u32` components cast to scalars. -/
def NVec.toVec3 (v : NVec) : Vec3 := ⟨(v.x : ℚ), (v.y : ℚ), (v.z : ℚ)⟩

/-- `Vec::swap_remove(i)`: remove index `i`, moving the last element into
its place. -/
def swap_remove {α : Type} (l : List α) (i : Nat) : List α :=
  match l.getLast? with
  | none => l
  | some last => l.dropLast.set i last

/-- wgpu `BufferUsages` bit flags as in the wgpu crate:
`COPY_DST = 8`, `VERTEX = 32`, `UNIFORM = 64`. -/
def BufferUsages.COPY_DST : Nat := 8

/-- wgpu `BufferUsages::VERTEX`. -/
def BufferUsages.VERTEX : Nat := 32

/-- wgpu `BufferUsages::UNIFORM`. -/
def BufferUsages.UNIFORM : Nat := 64

/-- `src/command_buffer.rs`: `pub enum NResource { Buffer(Index) }`. -/
inductive NResource where
  | Buffer (idx : Nat)
deriving DecidableEq

/-- wgpu `BindGroupLayoutEntry`, kept to its binding slot; the remaining
fields (shader-stage visibility, buffer binding type) are device-provider
configuration outside the core (spec §6) and carry no information the
claims depend on. -/
structure BindGroupLayoutEntry where
  binding : Nat
deriving DecidableEq

/-- A vertex-buffer layout reference; `Block::desc()` is the only layout the
chunk pipeline passes. -/
inductive VertexLayout where
  | blockDesc
deriving DecidableEq

/-- `src/command_buffer.rs`: `pub enum NCommandSetup`. Buffer contents are
byte lists; the shader is its source text (a `&'static str`). -/
inductive NCommandSetup where
  | CreateBuffer (contents : List Nat) (usage : Nat)
  | CreateBindGroup (entries : List BindGroupLayoutEntry) (resources : List NResource)
  | CreatePipeline (bind_groups : List Nat) (shader : String)
      (vertex_layouts : List VertexLayout) (use_model : Bool)
  | SharePipeline (id : Nat) (idx : Nat)
deriving DecidableEq

/-- `src/command_buffer.rs`: `pub enum NCommandRender` (the index format of
`SetIndexBuffer` is coded as a number). -/
inductive NCommandRender where
  | SetPipeline (idx : Nat)
  | SetVertexBuffer (slot : Nat) (idx : Nat)
  | SetIndexBuffer (idx : Nat) (format : Nat)
  | SetBindGroup (slot : Nat) (idx : Nat)
  | DrawIndexed (indices : Nat) (instances : Nat)
  | DrawModelIndexed (idx : Nat) (instances : Nat) (bind_groups : List Nat)
deriving DecidableEq

/-- `src/command_buffer.rs`: `pub struct CommandBuffer<N> { commands: Vec<N> }`. -/
structure CommandBuffer (N : Type) where
  commands : List N

/-- Little-endian byte encoding of one `u32`, as `bytemuck::cast_slice`
exposes it. -/
def u32_le_bytes (n : Nat) : List Nat :=
  [n % 256, n / 256 % 256, n / 65536 % 256, n / 16777216 % 256]

/-- `bytemuck::cast_slice::<_, u8>(&[v])` for one `NVec` (four `u32` words:
x, y, z, zero padding). -/
def NVec.bytes (v : NVec) : List Nat :=
  u32_le_bytes v.x ++ u32_le_bytes v.y ++ u32_le_bytes v.z ++ u32_le_bytes 0

/-- `bytemuck::cast_slice(&self.blocks)`: each `Block` is its packed `u32`
in little-endian bytes. -/
def blocks_bytes (blocks : List Block) : List Nat :=
  (blocks.map (fun b => u32_le_bytes b.data)).flatten

/-- The chunk-instance shader passed by `include_str!` in `Chunk::setup`;
the file `shaders/chunk_instance.wgsl` is outside the translated sources,
so only its identity matters here. -/
def chunk_instance_shader : String := "shaders/chunk_instance.wgsl"

/-- `src/chunks.rs`: `pub struct Chunk` — id, spatial position, Aabb and
block list (the `block_data` byte cache is recomputed from `blocks` on
every `setup` call and is represented by `blocks_bytes`; the `Uuid` id is
abstracted to a number). -/
structure Chunk where
  id : Nat
  position : NVec
  aabb : Aabb
  blocks : List Block

/-- `Chunk::new(id, position)`: empty block list, and an Aabb from
`position` (cast to scalars) to `position + 8.0`. -/
def Chunk.new (id : Nat) (position : NVec) : Chunk :=
  { id := id
    position := position
    aabb := Aabb.from_params position.toVec3
      ⟨position.toVec3.x + 8, position.toVec3.y + 8, position.toVec3.z + 8⟩
    blocks := [] }

/-- `Chunk::exists_block`: linear scan comparing decoded positions. -/
def Chunk.exists_block (c : Chunk) (position : NVec) : Bool :=
  c.blocks.any (fun block => decide (block.position = position))

/-- `Chunk::add_block`: push onto the block list. -/
def Chunk.add_block (c : Chunk) (block : Block) : Chunk :=
  { c with blocks := c.blocks ++ [block] }

/-- `Chunk::add_block_data`: push `Block::default().with_position(position)
.with_id(id)` (`Block::default()` is `Block::new(0)`). -/
def Chunk.add_block_data (c : Chunk) (x y z : Nat) (id : Nat) : Chunk :=
  { c with blocks := c.blocks ++ [((Block.new 0).with_position x y z).with_id id] }

/-- `Chunk::remove_block`: scan the whole list remembering the index of
every match (so the last match wins), then `swap_remove` it if any. -/
def Chunk.remove_block (c : Chunk) (position : NVec) : Chunk :=
  let idx := c.blocks.enum.foldl
    (fun idx p => if p.2.position = position then some p.1 else idx) none
  match idx with
  | some i => { c with blocks := swap_remove c.blocks i }
  | none => c

/-- `Chunk::setup` (`impl Model for Chunk`): four pushes in order — the
chunk-position uniform buffer, the packed block instance buffer, one bind
group over buffer 0, and the instance pipeline. -/
def Chunk.setup (c : Chunk) : CommandBuffer NCommandSetup :=
  ⟨[NCommandSetup.CreateBuffer (NVec.bytes c.position)
      (BufferUsages.UNIFORM ||| BufferUsages.COPY_DST),
    NCommandSetup.CreateBuffer (blocks_bytes c.blocks) BufferUsages.VERTEX,
    NCommandSetup.CreateBindGroup [⟨0⟩] [NResource.Buffer 0],
    NCommandSetup.CreatePipeline [0] chunk_instance_shader
      [VertexLayout.blockDesc] true]⟩

/-- `Chunk::render` (`impl Model for Chunk`) is `todo!()` in the source: it
panics unconditionally and never yields a command buffer; modelled as
`none`. -/
def Chunk.render (_ : Chunk) : Option (CommandBuffer NCommandRender) := none

/-- `src/camera.rs`: `SAFE_FRAC_PI_2 = FRAC_PI_2 - 0.0001`, with
`f32::consts::FRAC_PI_2` being exactly `13176795 / 2^23` and the tiny
subtraction carried out exactly in `ℚ`. -/
def SAFE_FRAC_PI_2 : ℚ := 13176795 / 8388608 - 1 / 10000

/-- `src/camera.rs`: `pub struct Camera { position, yaw, pitch }`. -/
structure Camera where
  position : Vec3
  yaw : ℚ
  pitch : ℚ
deriving DecidableEq

/-- `Camera::new`. -/
def Camera.new (position : Vec3) (yaw pitch : ℚ) : Camera :=
  ⟨position, yaw, pitch⟩

/-- `Camera::move_position`: `self.position += offset`. -/
def Camera.move_position (c : Camera) (offset : Vec3) : Camera :=
  { c with position :=
      ⟨c.position.x + offset.x, c.position.y + offset.y, c.position.z + offset.z⟩ }

/-- `Camera::add_yaw`: `self.yaw += yaw`. -/
def Camera.add_yaw (c : Camera) (yaw : ℚ) : Camera :=
  { c with yaw := c.yaw + yaw }

/-- `Camera::add_pitch`: `self.pitch += pitch`, then clamp into
`[-SAFE_FRAC_PI_2, SAFE_FRAC_PI_2]` exactly as the two-branch `if` does. -/
def Camera.add_pitch (c : Camera) (pitch : ℚ) : Camera :=
  let p := c.pitch + pitch
  { c with pitch :=
      if p < -SAFE_FRAC_PI_2 then -SAFE_FRAC_PI_2
      else if p > SAFE_FRAC_PI_2 then SAFE_FRAC_PI_2
      else p }

/-- `src/camera.rs`: `pub struct Projection { aspect, fov_y, z_near, z_far }`. -/
structure Projection where
  aspect : ℚ
  fov_y : ℚ
  z_near : ℚ
  z_far : ℚ
deriving DecidableEq

/-- `src/app.rs`: an entry of the model registry (`NModel`), kept to the
data the frame loop reads from it: its id and the `aabb()`/`position()`
values of the wrapped `Model`; the device-resource lists (buffers, bind
groups, pipelines) live on the GPU side and are not part of the
interpreted state. -/
structure NModel where
  id : Nat
  aabb : Aabb
  position : Vec3
deriving DecidableEq

/-- `src/app.rs`: an entry of the actor registry (`Box<dyn Actor>`), kept
to its id. -/
structure NActor where
  id : Nat
deriving DecidableEq

/-- `src/app.rs`: `pub struct ModelState { models: Vec<NModel> }`. -/
structure ModelState where
  models : List NModel
deriving DecidableEq

/-- `src/app.rs`: `pub struct ActorState { actors: Vec<Box<dyn Actor>> }`. -/
structure ActorState where
  actors : List NActor
deriving DecidableEq

/-- `src/command_buffer.rs`: `pub enum NCommandUpdate` (ids abstracted to
numbers, scalar payloads to `ℚ`). -/
inductive NCommandUpdate where
  | CreateModel (model : NModel)
  | CreateActor (actor : NActor)
  | RemoveModel (id : Nat)
  | RemoveActor (id : Nat)
  | MoveCamera (offset : Vec3)
  | RotateCamera (yaw : ℚ) (pitch : ℚ)
  | FovCamera (fov : ℚ)
  | UpdateBuffer (id : Nat) (idx : Nat)

/-- The fields of `App` that `parse_update_command` can reach: the two
registries, the camera and the projection. -/
structure AppState where
  actors : ActorState
  models : ModelState
  camera : Camera
  projection : Projection
deriving DecidableEq

/-- The `for … enumerate … break` search in the `RemoveModel` arm: index of
the first registry entry with the given id. -/
def find_model_idx (models : List NModel) (id : Nat) : Option Nat :=
  (models.enum.find? (fun p => decide (p.2.id = id))).map (fun p => p.1)

/-- The same first-match search in the `RemoveActor` arm. -/
def find_actor_idx (actors : List NActor) (id : Nat) : Option Nat :=
  (actors.enum.find? (fun p => decide (p.2.id = id))).map (fun p => p.1)

/-- `src/app.rs`: `App::parse_update_command`, arm for arm. `CreateModel` /
`CreateActor` push onto the registries (the device-side setup-buffer
interpretation allocates GPU resources and touches none of these fields);
`RemoveModel` / `RemoveActor` swap-remove the first id match if present;
the camera arms delegate to `Camera`; `FovCamera` has an empty body;
`UpdateBuffer` writes bytes into an existing GPU buffer through the queue
and leaves every field of the state unchanged. -/
def parse_update_command (s : AppState) : NCommandUpdate → AppState
  | NCommandUpdate.CreateModel model =>
      { s with models := ⟨s.models.models ++ [model]⟩ }
  | NCommandUpdate.CreateActor actor =>
      { s with actors := ⟨s.actors.actors ++ [actor]⟩ }
  | NCommandUpdate.RemoveModel id =>
      match find_model_idx s.models.models id with
      | some i => { s with models := ⟨swap_remove s.models.models i⟩ }
      | none => s
  | NCommandUpdate.RemoveActor id =>
      match find_actor_idx s.actors.actors id with
      | some i => { s with actors := ⟨swap_remove s.actors.actors i⟩ }
      | none => s
  | NCommandUpdate.MoveCamera offset =>
      { s with camera := s.camera.move_position offset }
  | NCommandUpdate.RotateCamera yaw pitch =>
      { s with camera := (s.camera.add_yaw yaw).add_pitch pitch }
  | NCommandUpdate.FovCamera _ => s
  | NCommandUpdate.UpdateBuffer _ _ => s

/-- `glam` `distance_squared`: squared euclidean distance. -/
def distance_squared (a b : Vec3) : ℚ :=
  (a.x - b.x) ^ 2 + (a.y - b.y) ^ 2 + (a.z - b.z) ^ 2

/-- `src/app.rs` `App::render`: the per-frame visibility filter over the
model registry — keep a model when the frustum test of its Aabb passes and
its squared distance to the camera position is below `z_far²`. The source
uses the tri-state `test_bounding_box` result in a boolean filter
position; per the spec's tri-state note (§9) boolean visibility is
`result != Outside`. -/
def render_visible_models (culling : FrustumCuller) (models : List NModel)
    (cam_position : Vec3) (z_far : ℚ) : List NModel :=
  (models.filter
    (fun model => decide (test_bounding_box culling model.aabb ≠ Intersection.Outside))).filter
    (fun model => decide (distance_squared model.position cam_position < z_far ^ 2))

/-- Well-formedness of an Aabb (spec §3): `min ≤ max` componentwise. -/
def Aabb.wf (a : Aabb) : Prop :=
  a.min.x ≤ a.max.x ∧ a.min.y ≤ a.max.y ∧ a.min.z ≤ a.max.z

/-- Box containment by corner inequalities: every point of `b` is a point
of `a`. -/
def Aabb.contains (a b : Aabb) : Prop :=
  a.min.x ≤ b.min.x ∧ a.min.y ≤ b.min.y ∧ a.min.z ≤ b.min.z
    ∧ b.max.x ≤ a.max.x ∧ b.max.y ≤ a.max.y ∧ b.max.z ≤ a.max.z

/-- The eight corner points of an Aabb. -/
def Aabb.corners (a : Aabb) : List Vec3 :=
  [⟨a.min.x, a.min.y, a.min.z⟩, ⟨a.min.x, a.min.y, a.max.z⟩,
   ⟨a.min.x, a.max.y, a.min.z⟩, ⟨a.min.x, a.max.y, a.max.z⟩,
   ⟨a.max.x, a.min.y, a.min.z⟩, ⟨a.max.x, a.min.y, a.max.z⟩,
   ⟨a.max.x, a.max.y, a.min.z⟩, ⟨a.max.x, a.max.y, a.max.z⟩]

lemma select_flip (q m M : ℚ) :
    (if q < 0 then m else M) = (if 0 ≤ q then M else m) := by
  rcases lt_or_le q 0 with h | h
  · rw [if_pos h, if_neg (not_le.mpr h)]
  · rw [if_neg (not_lt.mpr h), if_pos h]

lemma ge_neg_iff_nonneg (a w : ℚ) : (a ≥ -w) ↔ 0 ≤ a + w := by
  constructor <;> intro h <;> linarith

/-- The source's per-plane positive-vertex condition is exactly
non-negativity of the positive vertex's signed distance. -/
lemma pv_cond_iff (px py pz pw : ℚ) (a : Aabb) :
    (px * (if px < 0 then a.min.x else a.max.x)
      + py * (if py < 0 then a.min.y else a.max.y)
      + pz * (if pz < 0 then a.min.z else a.max.z) ≥ -pw)
    ↔ 0 ≤ Plane.signedDist ⟨px, py, pz, pw⟩ (a.positiveVertex ⟨px, py, pz, pw⟩) := by
  rw [select_flip, select_flip, select_flip, ge_neg_iff_nonneg]
  rfl

/-- The source's per-plane negative-vertex condition is exactly
non-negativity of the negative vertex's signed distance. -/
lemma nv_cond_iff (px py pz pw : ℚ) (a : Aabb) :
    (px * (if px < 0 then a.max.x else a.min.x)
      + py * (if py < 0 then a.max.y else a.min.y)
      + pz * (if pz < 0 then a.max.z else a.min.z) ≥ -pw)
    ↔ 0 ≤ Plane.signedDist ⟨px, py, pz, pw⟩ (a.negativeVertex ⟨px, py, pz, pw⟩) := by
  rw [select_flip, select_flip, select_flip, ge_neg_iff_nonneg]
  rfl

/-- Abstract shape of the source's nested positive-vertex short-circuit:
six nested `if`s that fall through to `Outside`, with the accumulated
negative-vertex boolean deciding `Inside` versus `Partial` at the end. -/
lemma nested_if_shape (P1 P2 P3 P4 P5 P6 : Prop)
    [Decidable P1] [Decidable P2] [Decidable P3]
    [Decidable P4] [Decidable P5] [Decidable P6]
    (b1 b2 b3 b4 b5 b6 : Bool) :
    (if P1 then
      if P2 then
        if P3 then
          if P4 then
            if P5 then
              if P6 then
                (if (true && b1 && b2 && b3 && b4 && b5 && b6) = true then
                  Intersection.Inside
                else Intersection.Partial)
              else Intersection.Outside
            else Intersection.Outside
          else Intersection.Outside
        else Intersection.Outside
      else Intersection.Outside
    else Intersection.Outside)
    = if P1 ∧ P2 ∧ P3 ∧ P4 ∧ P5 ∧ P6 then
        (if (b1 && b2 && b3 && b4 && b5 && b6) = true then
          Intersection.Inside
        else Intersection.Partial)
      else Intersection.Outside := by
  by_cases h1 : P1 <;> by_cases h2 : P2 <;> by_cases h3 : P3 <;>
    by_cases h4 : P4 <;> by_cases h5 : P5 <;> by_cases h6 : P6 <;>
    simp [h1, h2, h3, h4, h5, h6]

/-- `test_bounding_box` computes exactly the positive/negative-vertex
classification of §4.1. Shared bridge between the frustum claims. -/
lemma test_bounding_box_eq_classify (c : FrustumCuller) (a : Aabb) :
    test_bounding_box c a = classify_by_vertex_rule c a := by
  simp only [test_bounding_box]
  rw [nested_if_shape]
  simp only [pv_cond_iff, nv_cond_iff]
  simp only [classify_by_vertex_rule, FrustumCuller.planes,
    List.any_cons, List.any_nil, List.all_cons, List.all_nil,
    Bool.or_false, Bool.and_true]
  simp only [Bool.or_eq_true, Bool.and_eq_true, decide_eq_true_eq]
  have key : ((0 ≤ Plane.signedDist ⟨c.nx_x, c.nx_y, c.nx_z, c.nx_w⟩
        (a.positiveVertex ⟨c.nx_x, c.nx_y, c.nx_z, c.nx_w⟩))
      ∧ (0 ≤ Plane.signedDist ⟨c.px_x, c.px_y, c.px_z, c.px_w⟩
        (a.positiveVertex ⟨c.px_x, c.px_y, c.px_z, c.px_w⟩))
      ∧ (0 ≤ Plane.signedDist ⟨c.ny_x, c.ny_y, c.ny_z, c.ny_w⟩
        (a.positiveVertex ⟨c.ny_x, c.ny_y, c.ny_z, c.ny_w⟩))
      ∧ (0 ≤ Plane.signedDist ⟨c.py_x, c.py_y, c.py_z, c.py_w⟩
        (a.positiveVertex ⟨c.py_x, c.py_y, c.py_z, c.py_w⟩))
      ∧ (0 ≤ Plane.signedDist ⟨c.nz_x, c.nz_y, c.nz_z, c.nz_w⟩
        (a.positiveVertex ⟨c.nz_x, c.nz_y, c.nz_z, c.nz_w⟩))
      ∧ (0 ≤ Plane.signedDist ⟨c.pz_x, c.pz_y, c.pz_z, c.pz_w⟩
        (a.positiveVertex ⟨c.pz_x, c.pz_y, c.pz_z, c.pz_w⟩)))
      ↔ ¬ ((Plane.signedDist ⟨c.nx_x, c.nx_y, c.nx_z, c.nx_w⟩
          (a.positiveVertex ⟨c.nx_x, c.nx_y, c.nx_z, c.nx_w⟩) < 0)
        ∨ (Plane.signedDist ⟨c.px_x, c.px_y, c.px_z, c.px_w⟩
          (a.positiveVertex ⟨c.px_x, c.px_y, c.px_z, c.px_w⟩) < 0)
        ∨ (Plane.signedDist ⟨c.ny_x, c.ny_y, c.ny_z, c.ny_w⟩
          (a.positiveVertex ⟨c.ny_x, c.ny_y, c.ny_z, c.ny_w⟩) < 0)
        ∨ (Plane.signedDist ⟨c.py_x, c.py_y, c.py_z, c.py_w⟩
          (a.positiveVertex ⟨c.py_x, c.py_y, c.py_z, c.py_w⟩) < 0)
        ∨ (Plane.signedDist ⟨c.nz_x, c.nz_y, c.nz_z, c.nz_w⟩
          (a.positiveVertex ⟨c.nz_x, c.nz_y, c.nz_z, c.nz_w⟩) < 0)
        ∨ (Plane.signedDist ⟨c.pz_x, c.pz_y, c.pz_z, c.pz_w⟩
          (a.positiveVertex ⟨c.pz_x, c.pz_y, c.pz_z, c.pz_w⟩) < 0)) := by
    simp only [not_or, not_lt]
  simp only [key, ite_not]
  simp only [and_assoc]

lemma classify_eq_outside_iff (c : FrustumCuller) (a : Aabb) :
    classify_by_vertex_rule c a = Intersection.Outside
      ↔ ∃ p ∈ c.planes, p.signedDist (a.positiveVertex p) < 0 := by
  unfold classify_by_vertex_rule
  split_ifs with h1 h2 <;>
    simp_all [List.any_eq_true, List.all_eq_true, decide_eq_true_eq]

lemma classify_eq_inside_iff (c : FrustumCuller) (a : Aabb) :
    classify_by_vertex_rule c a = Intersection.Inside
      ↔ (∀ p ∈ c.planes, 0 ≤ p.signedDist (a.positiveVertex p))
        ∧ (∀ p ∈ c.planes, 0 ≤ p.signedDist (a.negativeVertex p)) := by
  unfold classify_by_vertex_rule
  split_ifs with h1 h2
  · simp only [List.any_eq_true, decide_eq_true_eq] at h1
    obtain ⟨p, hp, hlt⟩ := h1
    refine iff_of_false (by simp) ?_
    rintro ⟨hpv, _⟩
    exact absurd hlt (not_lt.mpr (hpv p hp))
  · simp only [List.any_eq_true, decide_eq_true_eq] at h1
    push_neg at h1
    simp only [List.all_eq_true, decide_eq_true_eq] at h2
    exact iff_of_true rfl ⟨h1, h2⟩
  · simp only [List.all_eq_true, decide_eq_true_eq] at h2
    refine iff_of_false (by simp) ?_
    rintro ⟨_, hnv⟩
    exact absurd hnv h2

/-- C1: for every `FrustumCuller` and every `Aabb`, `test_bounding_box`
classifies by the positive/negative-vertex rule (positive vertex is the
per-axis max corner when the plane's normal component is ≥ 0, else min;
negative vertex the opposite): a negative positive-vertex signed distance
on some plane gives `Outside`, all negative-vertex distances non-negative
give `Inside`, otherwise `Partial`; and when the first plane's
positive-vertex test fails the result is `Outside` regardless of every
other plane's coefficients — no further planes are evaluated. -/
theorem C1_test_bounding_box_vertex_rule (c : FrustumCuller) (a : Aabb) :
    test_bounding_box c a = classify_by_vertex_rule c a ∧
    (Plane.signedDist ⟨c.nx_x, c.nx_y, c.nx_z, c.nx_w⟩
        (a.positiveVertex ⟨c.nx_x, c.nx_y, c.nx_z, c.nx_w⟩) < 0 →
      ∀ c' : FrustumCuller, c'.nx_x = c.nx_x → c'.nx_y = c.nx_y →
        c'.nx_z = c.nx_z → c'.nx_w = c.nx_w →
        test_bounding_box c' a = Intersection.Outside) := by
  refine ⟨test_bounding_box_eq_classify c a, fun hlt c' h1 h2 h3 h4 => ?_⟩
  rw [test_bounding_box_eq_classify, classify_eq_outside_iff]
  refine ⟨⟨c'.nx_x, c'.nx_y, c'.nx_z, c'.nx_w⟩, by simp [FrustumCuller.planes], ?_⟩
  rw [h1, h2, h3, h4]
  exact hlt

/-- Witness for C1 at a concrete culler whose first plane rejects the box:
the result is `Outside` even when another plane's coefficients change. -/
theorem C1_test_bounding_box_vertex_rule_witness :
    test_bounding_box
      ⟨0, 0, 0, -1, 0, 0, 0, 0, 0, 0, 0, 0, 0, 0, 0, 0, 0, 0, 0, 0, 0, 0, 0, 7⟩
      (Aabb.from_params ⟨0, 0, 0⟩ ⟨1, 1, 1⟩) = Intersection.Outside :=
  (C1_test_bounding_box_vertex_rule
      ⟨0, 0, 0, -1, 0, 0, 0, 0, 0, 0, 0, 0, 0, 0, 0, 0, 0, 0, 0, 0, 0, 0, 0, 0⟩
      (Aabb.from_params ⟨0, 0, 0⟩ ⟨1, 1, 1⟩)).2
    (by simp [Plane.signedDist, Aabb.positiveVertex, Aabb.from_params])
    ⟨0, 0, 0, -1, 0, 0, 0, 0, 0, 0, 0, 0, 0, 0, 0, 0, 0, 0, 0, 0, 0, 0, 0, 7⟩
    rfl rfl rfl rfl

lemma positiveVertex_mem_corners (a : Aabb) (p : Plane) :
    a.positiveVertex p ∈ a.corners := by
  unfold Aabb.positiveVertex Aabb.corners
  by_cases hx : 0 ≤ p.x <;> by_cases hy : 0 ≤ p.y <;> by_cases hz : 0 ≤ p.z <;>
    simp [hx, hy, hz]

lemma mul_select_le (q m1 M1 m2 M2 : ℚ) (hm : m1 ≤ m2) (hM : M2 ≤ M1) :
    q * (if 0 ≤ q then m1 else M1) ≤ q * (if 0 ≤ q then m2 else M2) := by
  rcases le_or_lt 0 q with h | h
  · simp only [if_pos h]
    exact mul_le_mul_of_nonneg_left hm h
  · simp only [if_neg (not_le.mpr h)]
    exact mul_le_mul_of_nonpos_left hM h.le

lemma mul_select_swap (q m M : ℚ) (h : m ≤ M) :
    q * (if 0 ≤ q then m else M) ≤ q * (if 0 ≤ q then M else m) := by
  rcases le_or_lt 0 q with hq | hq
  · simp only [if_pos hq]
    exact mul_le_mul_of_nonneg_left h hq
  · simp only [if_neg (not_le.mpr hq)]
    exact mul_le_mul_of_nonpos_left h hq.le

/-- Shrinking a box moves every plane's negative-vertex distance up. -/
lemma nv_dist_mono (p : Plane) (a b : Aabb) (hc : a.contains b) :
    p.signedDist (a.negativeVertex p) ≤ p.signedDist (b.negativeVertex p) := by
  obtain ⟨h1, h2, h3, h4, h5, h6⟩ := hc
  have hx := mul_select_le p.x a.min.x a.max.x b.min.x b.max.x h1 h4
  have hy := mul_select_le p.y a.min.y a.max.y b.min.y b.max.y h2 h5
  have hz := mul_select_le p.z a.min.z a.max.z b.min.z b.max.z h3 h6
  unfold Plane.signedDist Aabb.negativeVertex
  dsimp only
  linarith

/-- On a well-formed box the negative vertex is never farther inside than
the positive vertex. -/
lemma nv_le_pv (p : Plane) (b : Aabb) (hw : b.wf) :
    p.signedDist (b.negativeVertex p) ≤ p.signedDist (b.positiveVertex p) := by
  obtain ⟨h1, h2, h3⟩ := hw
  have hx := mul_select_swap p.x b.min.x b.max.x h1
  have hy := mul_select_swap p.y b.min.y b.max.y h2
  have hz := mul_select_swap p.z b.min.z b.max.z h3
  unfold Plane.signedDist Aabb.negativeVertex Aabb.positiveVertex
  dsimp only
  linarith

/-- C4: for a fixed culler, a box all of whose corners are strictly outside
some plane's half-space tests `Outside`; a box whose positive and negative
vertices pass every plane tests `Inside`; and a well-formed box contained
in an `Inside` box never tests `Outside`. -/
theorem C4_culling_monotonicity (c : FrustumCuller) (a b : Aabb) :
    ((∃ p ∈ c.planes, ∀ v ∈ a.corners, p.signedDist v < 0) →
      test_bounding_box c a = Intersection.Outside) ∧
    (((∀ p ∈ c.planes, 0 ≤ p.signedDist (a.positiveVertex p)) ∧
      (∀ p ∈ c.planes, 0 ≤ p.signedDist (a.negativeVertex p))) →
      test_bounding_box c a = Intersection.Inside) ∧
    (b.wf → a.contains b → test_bounding_box c a = Intersection.Inside →
      test_bounding_box c b ≠ Intersection.Outside) := by
  refine ⟨?_, ?_, ?_⟩
  · rintro ⟨p, hp, hall⟩
    rw [test_bounding_box_eq_classify, classify_eq_outside_iff]
    exact ⟨p, hp, hall _ (positiveVertex_mem_corners a p)⟩
  · intro h
    rw [test_bounding_box_eq_classify, classify_eq_inside_iff]
    exact h
  · intro hwf hcont hin
    rw [test_bounding_box_eq_classify] at hin
    rw [classify_eq_inside_iff] at hin
    intro hEq
    rw [test_bounding_box_eq_classify, classify_eq_outside_iff] at hEq
    obtain ⟨p, hp, hlt⟩ := hEq
    have h0 : 0 ≤ p.signedDist (a.negativeVertex p) := hin.2 p hp
    have h1 := nv_dist_mono p a b hcont
    have h2 := nv_le_pv p b hwf
    linarith

/-- Witness for C4: a concrete culler rejecting a box wholly outside its
first plane; the zero culler accepting the unit box as `Inside`; and the
contained unit box never `Outside`. -/
theorem C4_culling_monotonicity_witness :
    test_bounding_box
      ⟨0, 0, 0, -1, 0, 0, 0, 0, 0, 0, 0, 0, 0, 0, 0, 0, 0, 0, 0, 0, 0, 0, 0, 0⟩
      (Aabb.from_params ⟨0, 0, 0⟩ ⟨1, 1, 1⟩) = Intersection.Outside ∧
    test_bounding_box
      ⟨0, 0, 0, 0, 0, 0, 0, 0, 0, 0, 0, 0, 0, 0, 0, 0, 0, 0, 0, 0, 0, 0, 0, 0⟩
      (Aabb.from_params ⟨0, 0, 0⟩ ⟨1, 1, 1⟩) = Intersection.Inside ∧
    test_bounding_box
      ⟨0, 0, 0, 0, 0, 0, 0, 0, 0, 0, 0, 0, 0, 0, 0, 0, 0, 0, 0, 0, 0, 0, 0, 0⟩
      (Aabb.from_params ⟨0, 0, 0⟩ ⟨1, 1, 1⟩) ≠ Intersection.Outside := by
  have hout := (C4_culling_monotonicity
    ⟨0, 0, 0, -1, 0, 0, 0, 0, 0, 0, 0, 0, 0, 0, 0, 0, 0, 0, 0, 0, 0, 0, 0, 0⟩
    (Aabb.from_params ⟨0, 0, 0⟩ ⟨1, 1, 1⟩)
    (Aabb.from_params ⟨0, 0, 0⟩ ⟨1, 1, 1⟩)).1
  have hc4 := C4_culling_monotonicity
    ⟨0, 0, 0, 0, 0, 0, 0, 0, 0, 0, 0, 0, 0, 0, 0, 0, 0, 0, 0, 0, 0, 0, 0, 0⟩
    (Aabb.from_params ⟨0, 0, 0⟩ ⟨1, 1, 1⟩)
    (Aabb.from_params ⟨0, 0, 0⟩ ⟨1, 1, 1⟩)
  have hin := hc4.2.1 (by
    constructor <;>
      · intro p hp
        simp only [FrustumCuller.planes, List.mem_cons, List.not_mem_nil, or_false] at hp
        rcases hp with h | h | h | h | h | h <;>
          simp [h, Plane.signedDist, Aabb.positiveVertex, Aabb.negativeVertex])
  refine ⟨hout ?_, hin, hc4.2.2 ?_ ?_ hin⟩
  · refine ⟨⟨0, 0, 0, -1⟩, by simp [FrustumCuller.planes], ?_⟩
    intro v hv
    simp only [Aabb.corners, Aabb.from_params, List.mem_cons, List.not_mem_nil,
      or_false] at hv
    rcases hv with h | h | h | h | h | h | h | h <;>
      norm_num [h, Plane.signedDist]
  · exact ⟨by norm_num [Aabb.from_params], by norm_num [Aabb.from_params],
      by norm_num [Aabb.from_params]⟩
  · exact ⟨le_refl _, le_refl _, le_refl _, le_refl _, le_refl _, le_refl _⟩

/-- C3: a model of the registry survives the per-frame filter iff the
frustum test of its Aabb is not `Outside` and its squared distance to the
camera position is strictly below the far plane squared; squared distance
exactly equal to the far plane squared is excluded. -/
theorem C3_render_visibility_filter (culling : FrustumCuller)
    (models : List NModel) (cam_position : Vec3) (z_far : ℚ) (m : NModel) :
    (m ∈ render_visible_models culling models cam_position z_far ↔
      m ∈ models ∧ test_bounding_box culling m.aabb ≠ Intersection.Outside
        ∧ distance_squared m.position cam_position < z_far ^ 2) ∧
    (distance_squared m.position cam_position = z_far ^ 2 →
      m ∉ render_visible_models culling models cam_position z_far) := by
  have hmain : m ∈ render_visible_models culling models cam_position z_far ↔
      m ∈ models ∧ test_bounding_box culling m.aabb ≠ Intersection.Outside
        ∧ distance_squared m.position cam_position < z_far ^ 2 := by
    unfold render_visible_models
    simp only [List.mem_filter, decide_eq_true_eq]
    tauto
  refine ⟨hmain, fun he hmem => ?_⟩
  have hlt := (hmain.mp hmem).2.2
  rw [he] at hlt
  exact lt_irrefl _ hlt

/-- Witness for C3: with the zero culler, a model at squared distance
exactly `z_far²` (position `(3,0,0)`, camera at the origin, far plane `3`)
is excluded from rendering. -/
theorem C3_render_visibility_filter_witness :
    (⟨0, Aabb.from_params ⟨0, 0, 0⟩ ⟨1, 1, 1⟩, ⟨3, 0, 0⟩⟩ : NModel) ∉
      render_visible_models
        ⟨0, 0, 0, 0, 0, 0, 0, 0, 0, 0, 0, 0, 0, 0, 0, 0, 0, 0, 0, 0, 0, 0, 0, 0⟩
        [⟨0, Aabb.from_params ⟨0, 0, 0⟩ ⟨1, 1, 1⟩, ⟨3, 0, 0⟩⟩]
        ⟨0, 0, 0⟩ 3 :=
  (C3_render_visibility_filter
    ⟨0, 0, 0, 0, 0, 0, 0, 0, 0, 0, 0, 0, 0, 0, 0, 0, 0, 0, 0, 0, 0, 0, 0, 0⟩
    [⟨0, Aabb.from_params ⟨0, 0, 0⟩ ⟨1, 1, 1⟩, ⟨3, 0, 0⟩⟩]
    ⟨0, 0, 0⟩ 3
    ⟨0, Aabb.from_params ⟨0, 0, 0⟩ ⟨1, 1, 1⟩, ⟨3, 0, 0⟩⟩).2
    (by norm_num [distance_squared])

lemma lor_mul_two_pow_add {n : Nat} (a b : Nat) (h : b < 2 ^ n) :
    (a * 2 ^ n) ||| b = a * 2 ^ n + b := by
  apply Nat.eq_of_testBit_eq
  intro i
  rw [Nat.testBit_lor, Nat.mul_comm a (2 ^ n), Nat.testBit_mul_pow_two,
    Nat.testBit_mul_pow_two_add a h i]
  rcases lt_or_ge i n with hi | hi
  · have hni : ¬ (n ≤ i) := Nat.not_le.mpr hi
    simp [hi, hni]
  · have hb : b.testBit i = false :=
      Nat.testBit_lt_two_pow (lt_of_lt_of_le h (Nat.pow_le_pow_right (by norm_num) hi))
    have hni : ¬ (i < n) := Nat.not_lt.mpr hi
    simp [hi, hb, hni]

lemma lor_mul_512_add (a b : Nat) (h : b < 512) : (a * 512) ||| b = a * 512 + b := by
  simpa using lor_mul_two_pow_add (n := 9) a b (by simpa using h)

lemma pos_encode_mul : ∀ x < 8, ∀ y < 8, ∀ z < 8,
    (x * 64) ||| (y * 8) ||| z = 64 * x + 8 * y + z := by decide

lemma pos_decode : ∀ x < 8, ∀ y < 8, ∀ z < 8,
    (64 * x + 8 * y + z) >>> 6 = x ∧ ((64 * x + 8 * y + z) >>> 3) &&& 7 = y
      ∧ (64 * x + 8 * y + z) &&& 7 = z := by decide

/-- `Block::default().with_position((x,y,z))` packs the three 3-bit fields. -/
lemma with_position_new_data (x y z : Nat) (hx : x < 8) (hy : y < 8) (hz : z < 8) :
    ((Block.new 0).with_position x y z).data = 64 * x + 8 * y + z := by
  have s6 : x <<< 6 = x * 64 := by rw [Nat.shiftLeft_eq]
  have s3 : y <<< 3 = y * 8 := by rw [Nat.shiftLeft_eq]
  simp only [Block.new, Block.with_position, u32]
  rw [Nat.mod_eq_of_lt (show x < 4294967296 by omega),
    Nat.mod_eq_of_lt (show y < 4294967296 by omega),
    Nat.mod_eq_of_lt (show z < 4294967296 by omega), s6, s3,
    Nat.mod_eq_of_lt (show x * 64 < 4294967296 by omega),
    Nat.mod_eq_of_lt (show y * 8 < 4294967296 by omega),
    Nat.zero_mod, Nat.zero_shiftRight, Nat.zero_shiftLeft, Nat.zero_mod,
    Nat.zero_or]
  exact pos_encode_mul x hx y hy z hz

/-- Packed value after `with_position` then `with_id` on a default block. -/
lemma roundtrip_data (x y z id : Nat) (hx : x < 8) (hy : y < 8) (hz : z < 8)
    (hid : id < 65536) :
    (((Block.new 0).with_position x y z).with_id id).data
      = id * 512 + (64 * x + 8 * y + z) := by
  have hp := with_position_new_data x y z hx hy hz
  have hlt : 64 * x + 8 * y + z < 512 := by omega
  have s9 : id <<< 9 = id * 512 := by rw [Nat.shiftLeft_eq]
  simp only [Block.with_id, u32, hp]
  rw [Nat.shiftRight_eq_div_pow,
    Nat.div_eq_of_lt (lt_of_lt_of_le hlt (by norm_num)),
    Nat.zero_shiftLeft, Nat.zero_mod, Nat.zero_or,
    Nat.mod_eq_of_lt hid, s9,
    Nat.mod_eq_of_lt (show id * 512 < 4294967296 by omega),
    show (511 : Nat) = 2 ^ 9 - 1 by norm_num,
    Nat.and_pow_two_sub_one_eq_mod,
    show (2 : Nat) ^ 9 = 512 by norm_num,
    Nat.mod_eq_of_lt hlt]
  exact lor_mul_512_add id (64 * x + 8 * y + z) hlt

/-- Packed value after `with_id` alone on a default block. -/
lemma with_id_new_data (id : Nat) (hid : id < 65536) :
    ((Block.new 0).with_id id).data = id * 512 := by
  have s9 : id <<< 9 = id * 512 := by rw [Nat.shiftLeft_eq]
  simp only [Block.new, Block.with_id, u32]
  rw [Nat.zero_mod, Nat.zero_shiftRight, Nat.zero_shiftLeft, Nat.zero_mod,
    Nat.zero_and, Nat.zero_or, Nat.mod_eq_of_lt hid, s9,
    Nat.mod_eq_of_lt (show id * 512 < 4294967296 by omega), Nat.or_zero]

/-- Packed value after `with_id` then `with_position` on a default block:
the same value as the other order. -/
lemma roundtrip_data_other_order (x y z id : Nat) (hx : x < 8) (hy : y < 8)
    (hz : z < 8) (hid : id < 65536) :
    (((Block.new 0).with_id id).with_position x y z).data
      = id * 512 + (64 * x + 8 * y + z) := by
  have hd := with_id_new_data id hid
  have hlt : 64 * x + 8 * y + z < 512 := by omega
  have s6 : x <<< 6 = x * 64 := by rw [Nat.shiftLeft_eq]
  have s3 : y <<< 3 = y * 8 := by rw [Nat.shiftLeft_eq]
  have s9 : id <<< 9 = id * 512 := by rw [Nat.shiftLeft_eq]
  simp only [Block.with_position, u32, hd]
  rw [Nat.mod_eq_of_lt (show x < 4294967296 by omega),
    Nat.mod_eq_of_lt (show y < 4294967296 by omega),
    Nat.mod_eq_of_lt (show z < 4294967296 by omega), s6, s3,
    Nat.mod_eq_of_lt (show x * 64 < 4294967296 by omega),
    Nat.mod_eq_of_lt (show y * 8 < 4294967296 by omega),
    pos_encode_mul x hx y hy z hz,
    Nat.shiftRight_eq_div_pow, show (2 : Nat) ^ 9 = 512 by norm_num,
    Nat.mul_div_cancel id (by norm_num), s9,
    Nat.mod_eq_of_lt (show id * 512 < 4294967296 by omega)]
  exact lor_mul_512_add id (64 * x + 8 * y + z) hlt

/-- Decoding the position fields of a packed block. -/
lemma position_of_packed (x y z id : Nat) (hx : x < 8) (hy : y < 8) (hz : z < 8) :
    Block.position ⟨id * 512 + (64 * x + 8 * y + z)⟩ = NVec.new x y z := by
  have hlt : 64 * x + 8 * y + z < 512 := by omega
  have hmask : (id * 512 + (64 * x + 8 * y + z)) &&& 511 = 64 * x + 8 * y + z := by
    rw [show (511 : Nat) = 2 ^ 9 - 1 by norm_num, Nat.and_pow_two_sub_one_eq_mod,
      show (2 : Nat) ^ 9 = 512 by norm_num, Nat.mul_comm id 512, Nat.mul_add_mod,
      Nat.mod_eq_of_lt hlt]
  have hd := pos_decode x hx y hy z hz
  simp only [Block.position, NVec.new, hmask]
  rw [hd.1, hd.2.1, hd.2.2]

/-- Decoding the id field of a packed block. -/
lemma id_of_packed (x y z id : Nat) (hx : x < 8) (hy : y < 8) (hz : z < 8)
    (hid : id < 65536) :
    Block.id ⟨id * 512 + (64 * x + 8 * y + z)⟩ = id := by
  have hlt : 64 * x + 8 * y + z < 512 := by omega
  simp only [Block.id]
  rw [Nat.shiftRight_eq_div_pow, show (2 : Nat) ^ 9 = 512 by norm_num,
    Nat.mul_comm id 512, Nat.mul_add_div (by norm_num), Nat.div_eq_of_lt hlt,
    Nat.add_zero, show (65535 : Nat) = 2 ^ 16 - 1 by norm_num,
    Nat.and_pow_two_sub_one_eq_mod, Nat.mod_eq_of_lt hid]

/-- C2: for local coordinates within the 3-bit position fields and an id
within the 16-bit id field, packing a default block with `with_position`
and `with_id` in either order round-trips: `position()` decodes to
`(x,y,z)` and `id()` decodes to `id`. -/
theorem C2_block_bitfield_roundtrip (x y z id : Nat)
    (hx : x < 8) (hy : y < 8) (hz : z < 8) (hid : id < 65536) :
    (((Block.new 0).with_position x y z).with_id id).position = NVec.new x y z ∧
    (((Block.new 0).with_position x y z).with_id id).id = id ∧
    (((Block.new 0).with_id id).with_position x y z).position = NVec.new x y z ∧
    (((Block.new 0).with_id id).with_position x y z).id = id := by
  have e1 : ((Block.new 0).with_position x y z).with_id id
      = (⟨id * 512 + (64 * x + 8 * y + z)⟩ : Block) := by
    rw [← roundtrip_data x y z id hx hy hz hid]
  have e2 : ((Block.new 0).with_id id).with_position x y z
      = (⟨id * 512 + (64 * x + 8 * y + z)⟩ : Block) := by
    rw [← roundtrip_data_other_order x y z id hx hy hz hid]
  exact ⟨by rw [e1]; exact position_of_packed x y z id hx hy hz,
    by rw [e1]; exact id_of_packed x y z id hx hy hz hid,
    by rw [e2]; exact position_of_packed x y z id hx hy hz,
    by rw [e2]; exact id_of_packed x y z id hx hy hz hid⟩

/-- Witness for C2 at `(x,y,z) = (1,2,3)`, `id = 7`. -/
theorem C2_block_bitfield_roundtrip_witness :
    (((Block.new 0).with_position 1 2 3).with_id 7).position = NVec.new 1 2 3 ∧
    (((Block.new 0).with_position 1 2 3).with_id 7).id = 7 ∧
    (((Block.new 0).with_id 7).with_position 1 2 3).position = NVec.new 1 2 3 ∧
    (((Block.new 0).with_id 7).with_position 1 2 3).id = 7 :=
  C2_block_bitfield_roundtrip 1 2 3 7 (by decide) (by decide) (by decide) (by decide)

/-- C5 (evaluation at the scenario input): the origin chunk with one block
added at local `(1,2,3)` with id `7` holds exactly the packed block `3667`,
whose decoded position is `(1,2,3)` and decoded id is `7`; `setup()`
produces the all-zero chunk-position uniform (origin contributes zero
offset) and the one-instance vertex buffer `[83,14,0,0]` (little-endian
`3667`); but `render()` is `todo!()` and produces no command buffer, so no
draw with instance-count 1 is ever emitted. -/
theorem C5_origin_chunk_single_block_instance :
    ((Chunk.new 0 (NVec.new 0 0 0)).add_block_data 1 2 3 7).blocks
      = [⟨3667⟩] ∧
    Block.position ⟨3667⟩ = NVec.new 1 2 3 ∧
    Block.id ⟨3667⟩ = 7 ∧
    ((Chunk.new 0 (NVec.new 0 0 0)).add_block_data 1 2 3 7).setup.commands
      = [NCommandSetup.CreateBuffer [0, 0, 0, 0, 0, 0, 0, 0, 0, 0, 0, 0, 0, 0, 0, 0]
          (BufferUsages.UNIFORM ||| BufferUsages.COPY_DST),
        NCommandSetup.CreateBuffer [83, 14, 0, 0] BufferUsages.VERTEX,
        NCommandSetup.CreateBindGroup [⟨0⟩] [NResource.Buffer 0],
        NCommandSetup.CreatePipeline [0] chunk_instance_shader
          [VertexLayout.blockDesc] true] ∧
    u32_le_bytes 3667 = [83, 14, 0, 0] ∧
    ((Chunk.new 0 (NVec.new 0 0 0)).add_block_data 1 2 3 7).render = none := by
  refine ⟨by decide, by decide, by decide, by decide, by decide, rfl⟩

/-- C6 (evaluation of the divergence): `Chunk::render` is `todo!()` — for
every chunk, zero blocks or not, it panics instead of emitting the
pipeline/vertex-buffer/draw commands, so it never yields a command buffer
at all. -/
theorem C6_chunk_render_produces_no_buffer (c : Chunk) : c.render = none :=
  rfl

/-- C7 counterexample: `Chunk::new` does not scale the origin by the chunk
edge length — the chunk at origin `(1,0,0)` gets Aabb min corner
`(1,0,0)`, not `(8,0,0)` (edge length 8 as built) nor `(16,0,0)` (the
spec's example edge length). -/
theorem C7_chunk_aabb_counterexample :
    (Chunk.new 0 (NVec.new 1 0 0)).aabb.min = (⟨1, 0, 0⟩ : Vec3) ∧
    (Chunk.new 0 (NVec.new 1 0 0)).aabb.min ≠ (⟨8, 0, 0⟩ : Vec3) ∧
    (Chunk.new 0 (NVec.new 1 0 0)).aabb.min ≠ (⟨16, 0, 0⟩ : Vec3) := by
  refine ⟨?_, ?_, ?_⟩ <;>
    norm_num [Chunk.new, NVec.toVec3, NVec.new, Aabb.from_params, Vec3.mk.injEq]

/-- C7 amended: `Chunk::new` constructs the Aabb from the unscaled origin
position to that position plus the chunk edge length 8, and the Aabb is
fixed at construction — `add_block`, `add_block_data` and `remove_block`
leave it unchanged. -/
theorem C7_chunk_aabb_unscaled_and_fixed (id : Nat) (position : NVec)
    (b : Block) (x y z bid : Nat) (rp : NVec) :
    (Chunk.new id position).aabb
      = Aabb.from_params position.toVec3
          ⟨position.toVec3.x + 8, position.toVec3.y + 8, position.toVec3.z + 8⟩ ∧
    ∀ c : Chunk, (c.add_block b).aabb = c.aabb ∧
      (c.add_block_data x y z bid).aabb = c.aabb ∧
      (c.remove_block rp).aabb = c.aabb := by
  refine ⟨rfl, fun c => ⟨rfl, rfl, ?_⟩⟩
  cases hfind : c.blocks.enum.foldl
      (fun idx p => if p.2.position = rp then some p.1 else idx) none with
  | none => simp [Chunk.remove_block, hfind]
  | some i => simp [Chunk.remove_block, hfind]

/-- C8: interpreting `RemoveModel(id)` when no registry entry has that id
leaves the whole interpreter state unchanged (no panic, no registry
mutation). -/
theorem C8_remove_model_absent_noop (s : AppState) (id : Nat)
    (h : ∀ m ∈ s.models.models, m.id ≠ id) :
    parse_update_command s (NCommandUpdate.RemoveModel id) = s := by
  have hnone : find_model_idx s.models.models id = none := by
    unfold find_model_idx
    rw [Option.map_eq_none', List.find?_eq_none]
    intro q hq
    simp only [decide_eq_true_eq]
    exact h q.2 (List.snd_mem_of_mem_enum hq)
  simp only [parse_update_command, hnone]

/-- Witness for C8: removing id 2 from a registry holding only id 1. -/
theorem C8_remove_model_absent_noop_witness :
    parse_update_command
      ⟨⟨[]⟩, ⟨[⟨1, Aabb.from_params ⟨0, 0, 0⟩ ⟨0, 0, 0⟩, ⟨0, 0, 0⟩⟩]⟩,
        Camera.new ⟨0, 0, 0⟩ 0 0, ⟨1, 1, 1, 1⟩⟩
      (NCommandUpdate.RemoveModel 2)
      = ⟨⟨[]⟩, ⟨[⟨1, Aabb.from_params ⟨0, 0, 0⟩ ⟨0, 0, 0⟩, ⟨0, 0, 0⟩⟩]⟩,
        Camera.new ⟨0, 0, 0⟩ 0 0, ⟨1, 1, 1, 1⟩⟩ :=
  C8_remove_model_absent_noop _ 2 (by
    intro m hm
    rw [List.mem_singleton] at hm
    subst hm
    decide)

/-- C9: a `FovCamera` (SetFieldOfView) update command is discarded with no
effect: the interpreter returns the state — projection, camera and both
registries — unchanged. -/
theorem C9_fov_command_discarded (fov : ℚ) (s : AppState) :
    parse_update_command s (NCommandUpdate.FovCamera fov) = s :=
  rfl

/-- C10: `add_pitch` always lands in `[-SAFE_FRAC_PI_2, SAFE_FRAC_PI_2]`
(so any sequence of `RotateCamera` commands keeps a pitch that starts in
bounds within bounds), while `add_yaw` never touches the pitch. -/
theorem C10_camera_pitch_clamped (c : Camera) (d yaw : ℚ) (s : AppState)
    (cmds : List (ℚ × ℚ)) :
    (-SAFE_FRAC_PI_2 ≤ (c.add_pitch d).pitch
      ∧ (c.add_pitch d).pitch ≤ SAFE_FRAC_PI_2) ∧
    ((c.add_yaw yaw).pitch = c.pitch) ∧
    (-SAFE_FRAC_PI_2 ≤ s.camera.pitch → s.camera.pitch ≤ SAFE_FRAC_PI_2 →
      -SAFE_FRAC_PI_2 ≤ (cmds.foldl (fun st yp =>
          parse_update_command st (NCommandUpdate.RotateCamera yp.1 yp.2)) s).camera.pitch
        ∧ (cmds.foldl (fun st yp =>
          parse_update_command st (NCommandUpdate.RotateCamera yp.1 yp.2)) s).camera.pitch
            ≤ SAFE_FRAC_PI_2) := by
  have hS : (0 : ℚ) ≤ SAFE_FRAC_PI_2 := by norm_num [SAFE_FRAC_PI_2]
  have hpitch : ∀ (cam : Camera) (dd : ℚ),
      -SAFE_FRAC_PI_2 ≤ (cam.add_pitch dd).pitch
        ∧ (cam.add_pitch dd).pitch ≤ SAFE_FRAC_PI_2 := by
    intro cam dd
    unfold Camera.add_pitch
    dsimp only
    split_ifs with h1 h2
    · exact ⟨le_refl _, by linarith⟩
    · exact ⟨by linarith, le_refl _⟩
    · exact ⟨not_lt.mp h1, not_lt.mp h2⟩
  refine ⟨hpitch c d, rfl, ?_⟩
  induction cmds generalizing s with
  | nil => exact fun h1 h2 => ⟨h1, h2⟩
  | cons hd tl ih =>
      intro h1 h2
      simp only [List.foldl_cons]
      exact ih _ (hpitch _ _).1 (hpitch _ _).2

/-- Witness for C10: from pitch 0, one large `RotateCamera` command keeps
the pitch within the safe bounds. -/
theorem C10_camera_pitch_clamped_witness :
    -SAFE_FRAC_PI_2 ≤ (([((1 : ℚ), (100 : ℚ))]).foldl (fun st yp =>
        parse_update_command st (NCommandUpdate.RotateCamera yp.1 yp.2))
        ⟨⟨[]⟩, ⟨[]⟩, Camera.new ⟨0, 0, 0⟩ 0 0, ⟨1, 1, 1, 1⟩⟩).camera.pitch
      ∧ (([((1 : ℚ), (100 : ℚ))]).foldl (fun st yp =>
        parse_update_command st (NCommandUpdate.RotateCamera yp.1 yp.2))
        ⟨⟨[]⟩, ⟨[]⟩, Camera.new ⟨0, 0, 0⟩ 0 0, ⟨1, 1, 1, 1⟩⟩).camera.pitch
          ≤ SAFE_FRAC_PI_2 :=
  (C10_camera_pitch_clamped (Camera.new ⟨0, 0, 0⟩ 0 0) 0 0
      ⟨⟨[]⟩, ⟨[]⟩, Camera.new ⟨0, 0, 0⟩ 0 0, ⟨1, 1, 1, 1⟩⟩
      [((1 : ℚ), (100 : ℚ))]).2.2
    (by norm_num [Camera.new, SAFE_FRAC_PI_2])
    (by norm_num [Camera.new, SAFE_FRAC_PI_2])
